import Mathlib

/-!
Shallow embedding of the DynamoDB polling helpers of `aws-async-assertions`
(`src/dynamo-db/get-item.ts` and the `query` helper), together with proofs of
the behavioural properties of the two pollers.

Stores are modelled as functions from the 1-based attempt number to the
outcome of that attempt (a thrown error, or a response).  Each poller is
embedded as a pure function returning both its observable trace (the store
calls it makes, with the exact request sent, and the pauses it takes, with
their durations) and its final outcome.
-/

namespace AwsAsyncAssertions

/-- JavaScript truthiness of an optional string: `undefined` and the empty
string are falsy, any other string is truthy. -/
def strTruthy : Option String → Bool
  | none => false
  | some s => !(s == "")

/-- JavaScript-object lookup on an association list built by sequential
assignment: a later binding of the same key overrides an earlier one, so the
lookup returns the value of the LAST matching pair. -/
def jsLookup {V : Type} : List (String × V) → String → Option V
  | [], _ => none
  | (k, v) :: rest, key =>
    match jsLookup rest key with
    | some w => some w
    | none => if k = key then some v else none

/-- An observable event of a poller: one store call carrying the request that
was sent, or one pause with its duration in seconds. -/
inductive PollEvent (ρ : Type) where
  | call (req : ρ)
  | pause (seconds : Nat)
deriving Repr, DecidableEq

/-- Number of store calls in a trace. -/
def countCalls {ρ : Type} : List (PollEvent ρ) → Nat
  | [] => 0
  | PollEvent.call _ :: rest => countCalls rest + 1
  | PollEvent.pause _ :: rest => countCalls rest

/-- Number of pauses in a trace. -/
def countPauses {ρ : Type} : List (PollEvent ρ) → Nat
  | [] => 0
  | PollEvent.call _ :: rest => countPauses rest
  | PollEvent.pause _ :: rest => countPauses rest + 1

/-! ## `getItem` (src/dynamo-db/get-item.ts) -/

/-- Key schema for DynamoDB item retrieval: required partition key, optional
sort key (`KeySchema` in get-item.ts). -/
structure KeySchema where
  pk : String
  sk : Option String
deriving Repr, DecidableEq

/-- The `Key` object of the `GetCommand` request. -/
structure GetKey where
  pk : String
  sk : Option String
deriving Repr, DecidableEq

/-- The request `params` sent with every `GetCommand`. -/
structure GetParams where
  TableName : String
  Key : GetKey
deriving Repr, DecidableEq

/-- Embeds the construction of `params` in `getItem`:
`{ TableName, Key: { pk: keys.pk, ...(keys.sk && { sk: keys.sk }) } }`.
The spread of `keys.sk && { sk: keys.sk }` adds the `sk` field exactly when
`keys.sk` is truthy (present and non-empty); spreading a falsy value adds
nothing. -/
def buildGetParams (keys : KeySchema) (tableName : String) : GetParams :=
  { TableName := tableName
    Key :=
      { pk := keys.pk
        sk := if strTruthy keys.sk then keys.sk else none } }

/-- Outcome of one store call made by `getItem`: the `send` either throws, or
returns a response whose `Item` field is present or absent. -/
inductive GetAttempt (α ε : Type) where
  | throws (e : ε)
  | returns (Item : Option α)
deriving Repr, DecidableEq

/-- Final outcome of a `getItem` invocation. -/
inductive GetOutcome (α ε : Type) where
  | ok (item : α)
  | storeError (e : ε)
  | recordNotFound
deriving Repr, DecidableEq

/-- The retry loop of `getItem`: `while (iteration <= maxIterations)`, with
`fuel = maxIterations - iteration + 1` remaining iterations.  Each iteration
sends the (loop-invariant) request; a present `Item` is returned immediately,
a thrown store error is rethrown immediately, and an absent `Item` is followed
by `await delay(delayInSeconds)` and the next iteration.  When the loop
exhausts its budget the terminal `record not found` error is thrown. -/
def getItemGo {α ε : Type} (store : Nat → GetAttempt α ε) (params : GetParams)
    (delayInSeconds : Nat) : Nat → Nat → List (PollEvent GetParams) × GetOutcome α ε
  | _, 0 => ([], GetOutcome.recordNotFound)
  | iteration, fuel + 1 =>
    match store iteration with
    | GetAttempt.throws e => ([PollEvent.call params], GetOutcome.storeError e)
    | GetAttempt.returns (some item) => ([PollEvent.call params], GetOutcome.ok item)
    | GetAttempt.returns none =>
      (PollEvent.call params :: PollEvent.pause delayInSeconds ::
          (getItemGo store params delayInSeconds (iteration + 1) fuel).1,
        (getItemGo store params delayInSeconds (iteration + 1) fuel).2)

/-- `getItem(keys, tableName, maxIterations, delayInSeconds)` against a store
behaviour: builds the request once, then runs the retry loop starting at
iteration 1. -/
def getItem {α ε : Type} (keys : KeySchema) (tableName : String)
    (maxIterations : Nat) (delayInSeconds : Nat)
    (store : Nat → GetAttempt α ε) : List (PollEvent GetParams) × GetOutcome α ε :=
  getItemGo store (buildGetParams keys tableName) delayInSeconds 1 maxIterations

/-! ## `query` (collection poller) -/

/-- The caller-supplied `QueryParams` of the `query` helper.  Optional fields
of the TypeScript interface are `Option`s; `scanIndexForward`, `maxIterations`
and `delayInSeconds` are destructured with defaults `true`, `10` and `2`.
`V` is the type of expression-attribute values, `K` the type of a pagination
key (`LastEvaluatedKey` / `ExclusiveStartKey`). -/
structure QueryParams (V K : Type) where
  tableName : String
  keyConditionExpression : String
  expressionAttributeValues : List (String × V)
  expressionAttributeNames : Option (List (String × String))
  indexName : Option String
  limit : Option Nat
  filterExpression : Option String
  filterAttributeValues : Option (List (String × V))
  consistentRead : Option Bool
  lastEvaluatedKey : Option K
  scanIndexForward : Option Bool
  maxIterations : Option Nat
  delayInSeconds : Option Nat
deriving Repr, DecidableEq

/-- The `QueryCommandInput` request sent to the store on every attempt. -/
structure QueryCommandInput (V K : Type) where
  TableName : String
  KeyConditionExpression : String
  ExpressionAttributeValues : List (String × V)
  IndexName : Option String
  Limit : Option Nat
  ConsistentRead : Option Bool
  ExclusiveStartKey : Option K
  ScanIndexForward : Option Bool
  ExpressionAttributeNames : Option (List (String × String))
  FilterExpression : Option String
deriving Repr, DecidableEq

/-- Embeds the construction of `baseParams` in `query`, including the two
conditional blocks that follow it:
`ConsistentRead: consistentRead ?? false`, `ScanIndexForward` from the
destructuring default `true`; `ExpressionAttributeNames` is set only when
supplied; when `filterExpression` is truthy the `FilterExpression` is set and,
when `filterAttributeValues` is supplied, the attribute-value map becomes the
object spread `{...base.ExpressionAttributeValues, ...filterAttributeValues}`
(modelled as list append, later bindings overriding under `jsLookup`). -/
def buildQueryInput {V K : Type} (p : QueryParams V K) : QueryCommandInput V K :=
  let base : QueryCommandInput V K :=
    { TableName := p.tableName
      KeyConditionExpression := p.keyConditionExpression
      ExpressionAttributeValues := p.expressionAttributeValues
      IndexName := p.indexName
      Limit := p.limit
      ConsistentRead := some (p.consistentRead.getD false)
      ExclusiveStartKey := p.lastEvaluatedKey
      ScanIndexForward := some (p.scanIndexForward.getD true)
      ExpressionAttributeNames := none
      FilterExpression := none }
  let base1 :=
    if p.expressionAttributeNames.isSome then
      { base with ExpressionAttributeNames := p.expressionAttributeNames }
    else base
  if strTruthy p.filterExpression then
    let base2 := { base1 with FilterExpression := p.filterExpression }
    match p.filterAttributeValues with
    | some fv =>
      { base2 with ExpressionAttributeValues := base2.ExpressionAttributeValues ++ fv }
    | none => base2
  else base1

/-- Outcome of one store call made by `query`: the `send` either throws, or
returns a `QueryCommandOutput` whose `Items` and `LastEvaluatedKey` fields may
each be absent. -/
inductive QueryAttempt (T K ε : Type) where
  | throws (e : ε)
  | returns (Items : Option (List T)) (LastEvaluatedKey : Option K)
deriving Repr, DecidableEq

/-- The value returned by a successful `query`: `{ items, lastEvaluatedKey }`. -/
structure QueryValue (T K : Type) where
  items : List T
  lastEvaluatedKey : Option K
deriving Repr, DecidableEq

/-- Final outcome of a `query` invocation. -/
inductive QueryOutcome (T K ε : Type) where
  | ok (value : QueryValue T K)
  | storeError (e : ε)
  | noResults
deriving Repr, DecidableEq

/-- The retry loop of `query`: each iteration sends the same `baseParams`
request; with `items = data.Items ?? []`, the attempt succeeds when
`items.length > 0 || data.LastEvaluatedKey` (a present pagination key is
truthy), returning `{ items, lastEvaluatedKey: data.LastEvaluatedKey }`; a
thrown store error is rethrown immediately; otherwise the loop pauses for
`delayInSeconds` and retries, and on exhaustion throws the terminal
`query returned no results after max retries` error. -/
def queryGo {V T K ε : Type} (store : Nat → QueryAttempt T K ε)
    (req : QueryCommandInput V K) (delayInSeconds : Nat) :
    Nat → Nat → List (PollEvent (QueryCommandInput V K)) × QueryOutcome T K ε
  | _, 0 => ([], QueryOutcome.noResults)
  | iteration, fuel + 1 =>
    match store iteration with
    | QueryAttempt.throws e => ([PollEvent.call req], QueryOutcome.storeError e)
    | QueryAttempt.returns is lek =>
      if 0 < (is.getD []).length ∨ lek.isSome then
        ([PollEvent.call req], QueryOutcome.ok ⟨is.getD [], lek⟩)
      else
        (PollEvent.call req :: PollEvent.pause delayInSeconds ::
            (queryGo store req delayInSeconds (iteration + 1) fuel).1,
          (queryGo store req delayInSeconds (iteration + 1) fuel).2)

/-- `query(params)` against a store behaviour: builds the request once before
the loop, then runs the retry loop starting at iteration 1 with the
destructuring defaults `maxIterations = 10`, `delayInSeconds = 2`. -/
def query {V T K ε : Type} (p : QueryParams V K)
    (store : Nat → QueryAttempt T K ε) :
    List (PollEvent (QueryCommandInput V K)) × QueryOutcome T K ε :=
  queryGo store (buildQueryInput p) (p.delayInSeconds.getD 2) 1 (p.maxIterations.getD 10)

/-! ## Concrete example inputs -/

/-- Example key with no sort id. -/
def exKeysNoSk : KeySchema := { pk := "USER#1", sk := none }

/-- Example key with a sort id. -/
def exKeysSk : KeySchema := { pk := "USER#1", sk := some "PROFILE" }

/-- Example key with an empty-string sort id. -/
def exKeysEmptySk : KeySchema := { pk := "USER#1", sk := some "" }

/-- A `getItem` store behaviour whose attempts never find an item. -/
def exStoreGNone : Nat → GetAttempt Nat String := fun _ => GetAttempt.returns none

/-- A `getItem` store behaviour finding item `7` on attempt 2. -/
def exStoreGAt2 : Nat → GetAttempt Nat String := fun i =>
  if i = 2 then GetAttempt.returns (some 7) else GetAttempt.returns none

/-- A `getItem` store behaviour throwing on attempt 1. -/
def exStoreGThrow : Nat → GetAttempt Nat String := fun i =>
  if i = 1 then GetAttempt.throws "StoreError" else GetAttempt.returns none

/-- Baseline query parameters used by the concrete instantiations. -/
def exQueryParams : QueryParams Nat Nat :=
  { tableName := "orders-table"
    keyConditionExpression := "pk = :pk"
    expressionAttributeValues := [(":pk", 1)]
    expressionAttributeNames := none
    indexName := none
    limit := none
    filterExpression := none
    filterAttributeValues := none
    consistentRead := none
    lastEvaluatedKey := none
    scanIndexForward := none
    maxIterations := some 3
    delayInSeconds := some 2 }

/-- Query parameters carrying a filter whose value map collides with the
key-condition value map on the `:pk` placeholder. -/
def exQueryParamsFilter : QueryParams Nat Nat :=
  { exQueryParams with
      filterExpression := some "amount > :min"
      filterAttributeValues := some [(":pk", 2), (":min", 10)] }

/-- Query parameters supplying filter attribute values WITHOUT a filter
expression. -/
def exQueryParamsValuesOnly : QueryParams Nat Nat :=
  { exQueryParams with filterAttributeValues := some [(":min", 10)] }

/-- The request that `exQueryParams` is expected to produce, written out
field by field. -/
def exRequestLiteral : QueryCommandInput Nat Nat :=
  { TableName := "orders-table"
    KeyConditionExpression := "pk = :pk"
    ExpressionAttributeValues := [(":pk", 1)]
    IndexName := none
    Limit := none
    ConsistentRead := some false
    ExclusiveStartKey := none
    ScanIndexForward := some true
    ExpressionAttributeNames := none
    FilterExpression := none }

/-- A query store behaviour whose attempts return empty pages without a
pagination key. -/
def exStoreQEmpty : Nat → QueryAttempt Nat Nat String := fun _ =>
  QueryAttempt.returns (some []) none

/-- A query store behaviour returning a one-item page on attempt 2. -/
def exStoreQAt2 : Nat → QueryAttempt Nat Nat String := fun i =>
  if i = 2 then QueryAttempt.returns (some [5]) none
  else QueryAttempt.returns (some []) none

/-- A query store behaviour returning an empty page with a present pagination
key on every attempt. -/
def exStoreQTok : Nat → QueryAttempt Nat Nat String := fun _ =>
  QueryAttempt.returns (some []) (some 9)

/-- A query store behaviour throwing on attempt 1. -/
def exStoreQThrow : Nat → QueryAttempt Nat Nat String := fun i =>
  if i = 1 then QueryAttempt.throws "StoreError"
  else QueryAttempt.returns (some []) none

/-! ## Loop lemmas -/

/-- If every attempt returns an absent item, the `getItem` loop makes one call
and one pause per remaining iteration, all pauses of the configured duration,
and ends in the terminal not-found error. -/
theorem getItemGo_allFail {α ε : Type} (store : Nat → GetAttempt α ε)
    (p : GetParams) (d : Nat) (h : ∀ i, store i = GetAttempt.returns none) :
    ∀ n it,
      countCalls (getItemGo store p d it n).1 = n ∧
      countPauses (getItemGo store p d it n).1 = n ∧
      (∀ s, PollEvent.pause s ∈ (getItemGo store p d it n).1 → s = d) ∧
      (getItemGo store p d it n).2 = GetOutcome.recordNotFound := by
  intro n
  induction n with
  | zero =>
    intro it
    simp [getItemGo, countCalls, countPauses]
  | succ m ih =>
    intro it
    obtain ⟨c1, c2, c3, c4⟩ := ih (it + 1)
    simp only [getItemGo, h it]
    refine ⟨?_, ?_, ?_, c4⟩
    · simp [countCalls, c1]
    · simp [countPauses, c2]
    · intro s hs
      simp only [List.mem_cons] at hs
      rcases hs with h1 | h1 | h1
      · exact absurd h1 (by simp)
      · cases h1; rfl
      · exact c3 s h1

/-- If the first attempt meeting the success condition is attempt `K` (with a
present item `v`), the `getItem` loop starting at iteration `it ≤ K` with
enough fuel makes `K + 1 - it` calls and `K - it` pauses of the configured
duration and returns `v`. -/
theorem getItemGo_firstSuccessAt {α ε : Type} (store : Nat → GetAttempt α ε)
    (p : GetParams) (d K : Nat) (v : α)
    (hsucc : store K = GetAttempt.returns (some v))
    (hfail : ∀ i, 1 ≤ i → i < K → store i = GetAttempt.returns none) :
    ∀ n it, 1 ≤ it → it ≤ K → K < it + n →
      countCalls (getItemGo store p d it n).1 = K + 1 - it ∧
      countPauses (getItemGo store p d it n).1 = K - it ∧
      (∀ s, PollEvent.pause s ∈ (getItemGo store p d it n).1 → s = d) ∧
      (getItemGo store p d it n).2 = GetOutcome.ok v := by
  intro n
  induction n with
  | zero => intro it _ h1 h2; omega
  | succ m ih =>
    intro it h0 h1 h2
    rcases Nat.eq_or_lt_of_le h1 with heq | hlt
    · subst heq
      simp only [getItemGo, hsucc]
      refine ⟨?_, ?_, ?_, by trivial⟩
      · simp only [countCalls]; omega
      · simp only [countPauses, countCalls]; omega
      · intro s hs; simp at hs
    · obtain ⟨c1, c2, c3, c4⟩ := ih (it + 1) (by omega) hlt (by omega)
      simp only [getItemGo, hfail it h0 hlt]
      refine ⟨?_, ?_, ?_, c4⟩
      · simp only [countCalls, countPauses, c1]; omega
      · simp only [countCalls, countPauses, c2]; omega
      · intro s hs
        simp only [List.mem_cons] at hs
        rcases hs with h1 | h1 | h1
        · exact absurd h1 (by simp)
        · cases h1; rfl
        · exact c3 s h1

/-- If the first `K - 1` attempts return an absent item and attempt `K`
throws, the `getItem` loop starting at iteration `it ≤ K` rethrows the store
error after `K + 1 - it` calls and `K - it` pauses (no pause after the
throwing attempt). -/
theorem getItemGo_throwAt {α ε : Type} (store : Nat → GetAttempt α ε)
    (p : GetParams) (d K : Nat) (e : ε)
    (hthrow : store K = GetAttempt.throws e)
    (hfail : ∀ i, 1 ≤ i → i < K → store i = GetAttempt.returns none) :
    ∀ n it, 1 ≤ it → it ≤ K → K < it + n →
      countCalls (getItemGo store p d it n).1 = K + 1 - it ∧
      countPauses (getItemGo store p d it n).1 = K - it ∧
      (∀ s, PollEvent.pause s ∈ (getItemGo store p d it n).1 → s = d) ∧
      (getItemGo store p d it n).2 = GetOutcome.storeError e := by
  intro n
  induction n with
  | zero => intro it _ h1 h2; omega
  | succ m ih =>
    intro it h0 h1 h2
    rcases Nat.eq_or_lt_of_le h1 with heq | hlt
    · subst heq
      simp only [getItemGo, hthrow]
      refine ⟨?_, ?_, ?_, by trivial⟩
      · simp only [countCalls]; omega
      · simp only [countPauses, countCalls]; omega
      · intro s hs; simp at hs
    · obtain ⟨c1, c2, c3, c4⟩ := ih (it + 1) (by omega) hlt (by omega)
      simp only [getItemGo, hfail it h0 hlt]
      refine ⟨?_, ?_, ?_, c4⟩
      · simp only [countCalls, countPauses, c1]; omega
      · simp only [countCalls, countPauses, c2]; omega
      · intro s hs
        simp only [List.mem_cons] at hs
        rcases hs with h1 | h1 | h1
        · exact absurd h1 (by simp)
        · cases h1; rfl
        · exact c3 s h1

/-- If every attempt returns an empty page without a pagination key, the
`query` loop makes one call and one pause per remaining iteration, all pauses
of the configured duration, and ends in the terminal no-results error. -/
theorem queryGo_allFail {V T K ε : Type} (store : Nat → QueryAttempt T K ε)
    (req : QueryCommandInput V K) (d : Nat)
    (h : ∀ i, ∃ is, store i = QueryAttempt.returns is none ∧ is.getD [] = ([] : List T)) :
    ∀ n it,
      countCalls (queryGo store req d it n).1 = n ∧
      countPauses (queryGo store req d it n).1 = n ∧
      (∀ s, PollEvent.pause s ∈ (queryGo store req d it n).1 → s = d) ∧
      (queryGo store req d it n).2 = QueryOutcome.noResults := by
  intro n
  induction n with
  | zero =>
    intro it
    simp [queryGo, countCalls, countPauses]
  | succ m ih =>
    intro it
    obtain ⟨is, hst, hnil⟩ := h it
    obtain ⟨c1, c2, c3, c4⟩ := ih (it + 1)
    have hcond : ¬(0 < (is.getD []).length ∨ (none : Option K).isSome) := by
      simp [hnil]
    simp only [queryGo, hst, if_neg hcond]
    refine ⟨?_, ?_, ?_, c4⟩
    · simp [countCalls, c1]
    · simp [countPauses, c2]
    · intro s hs
      simp only [List.mem_cons] at hs
      rcases hs with h1 | h1 | h1
      · exact absurd h1 (by simp)
      · cases h1; rfl
      · exact c3 s h1

/-- If the first attempt meeting the success condition (a non-empty page or a
present pagination key) is attempt `K`, the `query` loop starting at iteration
`it ≤ K` with enough fuel makes `K + 1 - it` calls and `K - it` pauses of the
configured duration and returns that attempt's page and pagination key. -/
theorem queryGo_firstSuccessAt {V T K ε : Type} (store : Nat → QueryAttempt T K ε)
    (req : QueryCommandInput V K) (d : Nat) (Kn : Nat)
    (is : Option (List T)) (lek : Option K)
    (hsucc : store Kn = QueryAttempt.returns is lek)
    (hcrit : 0 < (is.getD []).length ∨ lek.isSome)
    (hfail : ∀ i, 1 ≤ i → i < Kn →
      ∃ is2, store i = QueryAttempt.returns is2 none ∧ is2.getD [] = ([] : List T)) :
    ∀ n it, 1 ≤ it → it ≤ Kn → Kn < it + n →
      countCalls (queryGo store req d it n).1 = Kn + 1 - it ∧
      countPauses (queryGo store req d it n).1 = Kn - it ∧
      (∀ s, PollEvent.pause s ∈ (queryGo store req d it n).1 → s = d) ∧
      (queryGo store req d it n).2 = QueryOutcome.ok ⟨is.getD [], lek⟩ := by
  intro n
  induction n with
  | zero => intro it _ h1 h2; omega
  | succ m ih =>
    intro it h0 h1 h2
    rcases Nat.eq_or_lt_of_le h1 with heq | hlt
    · subst heq
      simp only [queryGo, hsucc, if_pos hcrit]
      refine ⟨?_, ?_, ?_, by trivial⟩
      · simp only [countCalls]; omega
      · simp only [countPauses, countCalls]; omega
      · intro s hs; simp at hs
    · obtain ⟨is2, hst, hnil⟩ := hfail it h0 hlt
      obtain ⟨c1, c2, c3, c4⟩ := ih (it + 1) (by omega) hlt (by omega)
      have hcond : ¬(0 < (is2.getD []).length ∨ (none : Option K).isSome) := by
        simp [hnil]
      simp only [queryGo, hst, if_neg hcond]
      refine ⟨?_, ?_, ?_, c4⟩
      · simp only [countCalls, countPauses, c1]; omega
      · simp only [countCalls, countPauses, c2]; omega
      · intro s hs
        simp only [List.mem_cons] at hs
        rcases hs with h1 | h1 | h1
        · exact absurd h1 (by simp)
        · cases h1; rfl
        · exact c3 s h1

/-- If the first `K - 1` attempts return an empty page without a pagination
key and attempt `K` throws, the `query` loop starting at iteration `it ≤ K`
rethrows the store error after `K + 1 - it` calls and `K - it` pauses (no
pause after the throwing attempt). -/
theorem queryGo_throwAt {V T K ε : Type} (store : Nat → QueryAttempt T K ε)
    (req : QueryCommandInput V K) (d : Nat) (Kn : Nat) (e : ε)
    (hthrow : store Kn = QueryAttempt.throws e)
    (hfail : ∀ i, 1 ≤ i → i < Kn →
      ∃ is2, store i = QueryAttempt.returns is2 none ∧ is2.getD [] = ([] : List T)) :
    ∀ n it, 1 ≤ it → it ≤ Kn → Kn < it + n →
      countCalls (queryGo (V := V) store req d it n).1 = Kn + 1 - it ∧
      countPauses (queryGo store req d it n).1 = Kn - it ∧
      (∀ s, PollEvent.pause s ∈ (queryGo store req d it n).1 → s = d) ∧
      (queryGo store req d it n).2 = QueryOutcome.storeError e := by
  intro n
  induction n with
  | zero => intro it _ h1 h2; omega
  | succ m ih =>
    intro it h0 h1 h2
    rcases Nat.eq_or_lt_of_le h1 with heq | hlt
    · subst heq
      simp only [queryGo, hthrow]
      refine ⟨?_, ?_, ?_, by trivial⟩
      · simp only [countCalls]; omega
      · simp only [countPauses, countCalls]; omega
      · intro s hs; simp at hs
    · obtain ⟨is2, hst, hnil⟩ := hfail it h0 hlt
      obtain ⟨c1, c2, c3, c4⟩ := ih (it + 1) (by omega) hlt (by omega)
      have hcond : ¬(0 < (is2.getD []).length ∨ (none : Option K).isSome) := by
        simp [hnil]
      simp only [queryGo, hst, if_neg hcond]
      refine ⟨?_, ?_, ?_, c4⟩
      · simp only [countCalls, countPauses, c1]; omega
      · simp only [countCalls, countPauses, c2]; omega
      · intro s hs
        simp only [List.mem_cons] at hs
        rcases hs with h1 | h1 | h1
        · exact absurd h1 (by simp)
        · cases h1; rfl
        · exact c3 s h1

/-! ## Claims -/

/-- C1: for every retry budget `N ≥ 1`, if every store attempt fails the
success criterion (getItem: the store returns no item; query: the store
returns zero items and no continuation token) and no attempt throws, then
each poller performs exactly `N` store calls and exactly `N` pauses, each
pause of the same configured duration (no backoff growth), and then fails
with the terminal not-found error. -/
theorem C1_exhausted_budget {α ε T K ε2 V : Type}
    (keys : KeySchema) (tbl : String) (N d : Nat)
    (storeG : Nat → GetAttempt α ε)
    (p : QueryParams V K) (storeQ : Nat → QueryAttempt T K ε2)
    (_hN : 1 ≤ N)
    (hG : ∀ i, storeG i = GetAttempt.returns none)
    (hQ : ∀ i, ∃ is, storeQ i = QueryAttempt.returns is none ∧
      is.getD [] = ([] : List T))
    (hm : p.maxIterations.getD 10 = N) (hd : p.delayInSeconds.getD 2 = d) :
    (countCalls (getItem keys tbl N d storeG).1 = N ∧
     countPauses (getItem keys tbl N d storeG).1 = N ∧
     (∀ s, PollEvent.pause s ∈ (getItem keys tbl N d storeG).1 → s = d) ∧
     (getItem keys tbl N d storeG).2 = GetOutcome.recordNotFound) ∧
    (countCalls (query p storeQ).1 = N ∧
     countPauses (query p storeQ).1 = N ∧
     (∀ s, PollEvent.pause s ∈ (query p storeQ).1 → s = d) ∧
     (query p storeQ).2 = QueryOutcome.noResults) := by
  constructor
  · exact getItemGo_allFail storeG (buildGetParams keys tbl) d hG N 1
  · unfold query
    rw [hm, hd]
    exact queryGo_allFail storeQ (buildQueryInput p) d hQ N 1

/-- Witness for C1: budget 3, pause 2, stores that never succeed. -/
theorem C1_exhausted_budget_witness :
    countCalls (getItem exKeysNoSk "t" 3 2 exStoreGNone).1 = 3 ∧
    countPauses (getItem exKeysNoSk "t" 3 2 exStoreGNone).1 = 3 ∧
    (getItem exKeysNoSk "t" 3 2 exStoreGNone).2 = GetOutcome.recordNotFound ∧
    countCalls (query exQueryParams exStoreQEmpty).1 = 3 ∧
    countPauses (query exQueryParams exStoreQEmpty).1 = 3 ∧
    (query exQueryParams exStoreQEmpty).2 = QueryOutcome.noResults := by
  have h := C1_exhausted_budget exKeysNoSk "t" 3 2 exStoreGNone
    exQueryParams exStoreQEmpty (by decide) (fun i => rfl)
    (fun i => ⟨some [], rfl, rfl⟩) rfl rfl
  exact ⟨h.1.1, h.1.2.1, h.1.2.2.2, h.2.1, h.2.2.1, h.2.2.2.2⟩

/-- C2: for both pollers, if the first attempt satisfying the success
criterion is attempt `K ≤ maxAttempts`, the poller performs exactly `K` store
calls and exactly `K - 1` pauses, returns the value of that `K`-th attempt
(getItem: the raw item; query: the items plus the continuation token), and
performs no further attempt or pause after it. -/
theorem C2_first_success {α ε T K ε2 V : Type}
    (keys : KeySchema) (tbl : String) (N d Kg Kq : Nat) (v : α)
    (storeG : Nat → GetAttempt α ε)
    (p : QueryParams V K) (storeQ : Nat → QueryAttempt T K ε2)
    (is : Option (List T)) (lek : Option K)
    (hKg1 : 1 ≤ Kg) (hKgN : Kg ≤ N)
    (hGsucc : storeG Kg = GetAttempt.returns (some v))
    (hGfail : ∀ i, 1 ≤ i → i < Kg → storeG i = GetAttempt.returns none)
    (hKq1 : 1 ≤ Kq) (hKqN : Kq ≤ p.maxIterations.getD 10)
    (hQsucc : storeQ Kq = QueryAttempt.returns is lek)
    (hcrit : 0 < (is.getD []).length ∨ lek.isSome)
    (hQfail : ∀ i, 1 ≤ i → i < Kq →
      ∃ is2, storeQ i = QueryAttempt.returns is2 none ∧
        is2.getD [] = ([] : List T)) :
    (countCalls (getItem keys tbl N d storeG).1 = Kg ∧
     countPauses (getItem keys tbl N d storeG).1 = Kg - 1 ∧
     (∀ s, PollEvent.pause s ∈ (getItem keys tbl N d storeG).1 → s = d) ∧
     (getItem keys tbl N d storeG).2 = GetOutcome.ok v) ∧
    (countCalls (query p storeQ).1 = Kq ∧
     countPauses (query p storeQ).1 = Kq - 1 ∧
     (∀ s, PollEvent.pause s ∈ (query p storeQ).1 → s = p.delayInSeconds.getD 2) ∧
     (query p storeQ).2 = QueryOutcome.ok ⟨is.getD [], lek⟩) := by
  unfold getItem query
  constructor
  · obtain ⟨c1, c2, c3, c4⟩ :=
      getItemGo_firstSuccessAt storeG (buildGetParams keys tbl) d Kg v
        hGsucc hGfail N 1 (by omega) hKg1 (by omega)
    exact ⟨by omega, by omega, c3, c4⟩
  · obtain ⟨c1, c2, c3, c4⟩ :=
      queryGo_firstSuccessAt storeQ (buildQueryInput p) (p.delayInSeconds.getD 2)
        Kq is lek hQsucc hcrit hQfail (p.maxIterations.getD 10) 1
        (by omega) hKq1 (by omega)
    exact ⟨by omega, by omega, c3, c4⟩

/-- Witness for C2: success on attempt 2 with budget 3 for both pollers. -/
theorem C2_first_success_witness :
    countCalls (getItem exKeysNoSk "t" 3 2 exStoreGAt2).1 = 2 ∧
    countPauses (getItem exKeysNoSk "t" 3 2 exStoreGAt2).1 = 1 ∧
    (getItem exKeysNoSk "t" 3 2 exStoreGAt2).2 = GetOutcome.ok 7 ∧
    countCalls (query exQueryParams exStoreQAt2).1 = 2 ∧
    countPauses (query exQueryParams exStoreQAt2).1 = 1 ∧
    (query exQueryParams exStoreQAt2).2 = QueryOutcome.ok ⟨[5], none⟩ := by
  have h := C2_first_success exKeysNoSk "t" 3 2 2 2 7 exStoreGAt2
    exQueryParams exStoreQAt2 (some [5]) none
    (by decide) (by decide) rfl
    (by intro i h1 h2; interval_cases i; rfl)
    (by decide) (by decide) rfl (by decide)
    (by intro i h1 h2; interval_cases i; exact ⟨some [], rfl, rfl⟩)
  exact ⟨h.1.1, h.1.2.1, h.1.2.2.2, h.2.1, h.2.2.1, h.2.2.2.2⟩

/-- C3: an attempt of the collection poller counts as success iff the
returned page has at least one item or carries a continuation token; in
particular a page with zero items but a present continuation token is
returned immediately as `{items: [], continuationToken}` with no further
attempt, whereas the single-record poller succeeds only on a present item. -/
theorem C3_success_criterion {V T K ε α ε2 : Type}
    (store : Nat → QueryAttempt T K ε) (req : QueryCommandInput V K)
    (storeG : Nat → GetAttempt α ε2) (p : GetParams)
    (d it fuel : Nat) (is : Option (List T)) (lek : Option K) (oi : Option α)
    (hq : store it = QueryAttempt.returns is lek)
    (hg : storeG it = GetAttempt.returns oi) :
    (queryGo store req d it (fuel + 1) =
        ([PollEvent.call req], QueryOutcome.ok ⟨is.getD [], lek⟩)
      ↔ (0 < (is.getD []).length ∨ lek.isSome)) ∧
    (is.getD [] = [] → lek.isSome →
      queryGo store req d it (fuel + 1) =
        ([PollEvent.call req], QueryOutcome.ok ⟨[], lek⟩)) ∧
    ((∃ v, getItemGo storeG p d it (fuel + 1) =
        ([PollEvent.call p], GetOutcome.ok v))
      ↔ oi.isSome) := by
  refine ⟨?_, ?_, ?_⟩
  · by_cases hc : 0 < (is.getD []).length ∨ lek.isSome
    · simp only [queryGo, hq, if_pos hc]
      exact iff_of_true (by trivial) hc
    · simp only [queryGo, hq, if_neg hc]
      refine iff_of_false ?_ hc
      intro heq
      have hlen := congrArg (fun x => x.1.length) heq
      simp at hlen
  · intro h1 h2
    have hc : 0 < (is.getD []).length ∨ lek.isSome := Or.inr h2
    simp [queryGo, hq, if_pos hc, h1]
    exact Option.isSome_iff_ne_none.mp h2
  · cases oi with
    | some v =>
      refine iff_of_true ⟨v, ?_⟩ rfl
      simp [getItemGo, hg]
    | none =>
      refine iff_of_false ?_ (by simp)
      rintro ⟨v, hv⟩
      simp only [getItemGo, hg] at hv
      have hlen := congrArg (fun x => x.1.length) hv
      simp at hlen

/-- Witness for C3: an empty page with a present continuation token is
returned immediately on attempt 1. -/
theorem C3_success_criterion_witness :
    queryGo exStoreQTok (buildQueryInput exQueryParams) 2 1 1 =
      ([PollEvent.call (buildQueryInput exQueryParams)],
        QueryOutcome.ok ⟨[], some 9⟩) := by
  have h := C3_success_criterion exStoreQTok (buildQueryInput exQueryParams)
    exStoreGNone (buildGetParams exKeysNoSk "t") 2 1 0 (some []) (some 9) none
    rfl rfl
  exact h.2.1 rfl rfl

/-- C4: for both pollers, if the store call on attempt `K ≤ maxAttempts`
throws, the poller rethrows that exact error immediately: no attempt `K + 1`,
no pause after attempt `K` (so `K` calls and `K - 1` pauses), and the terminal
not-found error is never raised in that call. -/
theorem C4_store_error_propagation {α ε T K ε2 V : Type}
    (keys : KeySchema) (tbl : String) (N d Kg Kq : Nat) (eg : ε) (eq2 : ε2)
    (storeG : Nat → GetAttempt α ε)
    (p : QueryParams V K) (storeQ : Nat → QueryAttempt T K ε2)
    (hKg1 : 1 ≤ Kg) (hKgN : Kg ≤ N)
    (hGthrow : storeG Kg = GetAttempt.throws eg)
    (hGfail : ∀ i, 1 ≤ i → i < Kg → storeG i = GetAttempt.returns none)
    (hKq1 : 1 ≤ Kq) (hKqN : Kq ≤ p.maxIterations.getD 10)
    (hQthrow : storeQ Kq = QueryAttempt.throws eq2)
    (hQfail : ∀ i, 1 ≤ i → i < Kq →
      ∃ is2, storeQ i = QueryAttempt.returns is2 none ∧
        is2.getD [] = ([] : List T)) :
    (countCalls (getItem keys tbl N d storeG).1 = Kg ∧
     countPauses (getItem keys tbl N d storeG).1 = Kg - 1 ∧
     (∀ s, PollEvent.pause s ∈ (getItem keys tbl N d storeG).1 → s = d) ∧
     (getItem keys tbl N d storeG).2 = GetOutcome.storeError eg) ∧
    (countCalls (query p storeQ).1 = Kq ∧
     countPauses (query p storeQ).1 = Kq - 1 ∧
     (∀ s, PollEvent.pause s ∈ (query p storeQ).1 → s = p.delayInSeconds.getD 2) ∧
     (query p storeQ).2 = QueryOutcome.storeError eq2) := by
  unfold getItem query
  constructor
  · obtain ⟨c1, c2, c3, c4⟩ :=
      getItemGo_throwAt storeG (buildGetParams keys tbl) d Kg eg
        hGthrow hGfail N 1 (by omega) hKg1 (by omega)
    exact ⟨by omega, by omega, c3, c4⟩
  · obtain ⟨c1, c2, c3, c4⟩ :=
      queryGo_throwAt storeQ (buildQueryInput p) (p.delayInSeconds.getD 2)
        Kq eq2 hQthrow hQfail (p.maxIterations.getD 10) 1
        (by omega) hKq1 (by omega)
    exact ⟨by omega, by omega, c3, c4⟩

/-- Witness for C4: with budget 3, a throw on attempt 1 propagates with one
call, no pause, and neither poller reaches the terminal not-found error. -/
theorem C4_store_error_propagation_witness :
    countCalls (getItem exKeysNoSk "t" 3 2 exStoreGThrow).1 = 1 ∧
    countPauses (getItem exKeysNoSk "t" 3 2 exStoreGThrow).1 = 0 ∧
    (getItem exKeysNoSk "t" 3 2 exStoreGThrow).2 =
      GetOutcome.storeError "StoreError" ∧
    countCalls (query exQueryParams exStoreQThrow).1 = 1 ∧
    countPauses (query exQueryParams exStoreQThrow).1 = 0 ∧
    (query exQueryParams exStoreQThrow).2 =
      QueryOutcome.storeError "StoreError" := by
  have h := C4_store_error_propagation exKeysNoSk "t" 3 2 1 1
    "StoreError" "StoreError" exStoreGThrow exQueryParams exStoreQThrow
    (by decide) (by decide) rfl (by intro i h1 h2; omega)
    (by decide) (by decide) rfl (by intro i h1 h2; omega)
  exact ⟨h.1.1, h.1.2.1, h.1.2.2.2, h.2.1, h.2.2.1, h.2.2.2.2⟩

/-- Object-spread semantics of the merge: looking up a key in `a ++ b` finds
`b`'s binding when `b` has one, and `a`'s binding otherwise. -/
theorem jsLookup_append {V : Type} (a b : List (String × V)) (key : String) :
    jsLookup (a ++ b) key =
      match jsLookup b key with
      | some w => some w
      | none => jsLookup a key := by
  induction a with
  | nil =>
    cases hb : jsLookup b key <;> simp [jsLookup, hb]
  | cons hd tl ih =>
    obtain ⟨k, v⟩ := hd
    simp only [List.cons_append, jsLookup, ih]
    cases hb : jsLookup b key <;> cases ht : jsLookup tl key <;>
      simp [ih, hb, ht]

/-- Field-by-field characterisation of the request built by `query` before
its retry loop. -/
theorem buildQueryInput_fields {V K : Type} (p : QueryParams V K) :
    (buildQueryInput p).TableName = p.tableName ∧
    (buildQueryInput p).KeyConditionExpression = p.keyConditionExpression ∧
    (buildQueryInput p).IndexName = p.indexName ∧
    (buildQueryInput p).Limit = p.limit ∧
    (buildQueryInput p).ConsistentRead = some (p.consistentRead.getD false) ∧
    (buildQueryInput p).ExclusiveStartKey = p.lastEvaluatedKey ∧
    (buildQueryInput p).ScanIndexForward = some (p.scanIndexForward.getD true) ∧
    (buildQueryInput p).ExpressionAttributeNames =
      (if p.expressionAttributeNames.isSome then p.expressionAttributeNames
        else none) ∧
    (buildQueryInput p).FilterExpression =
      (if strTruthy p.filterExpression then p.filterExpression else none) ∧
    (buildQueryInput p).ExpressionAttributeValues =
      (if strTruthy p.filterExpression then
        match p.filterAttributeValues with
        | some fv => p.expressionAttributeValues ++ fv
        | none => p.expressionAttributeValues
      else p.expressionAttributeValues) := by
  unfold buildQueryInput
  by_cases hn : p.expressionAttributeNames.isSome <;>
    by_cases ht : strTruthy p.filterExpression <;>
      cases hfv : p.filterAttributeValues <;>
        simp [hn, ht, hfv]

/-- Every call event in a `queryGo` trace carries the request the loop was
given. -/
theorem queryGo_call_req {V T K ε : Type} (store : Nat → QueryAttempt T K ε)
    (req : QueryCommandInput V K) (d : Nat) :
    ∀ n it r, PollEvent.call r ∈ (queryGo store req d it n).1 → r = req := by
  intro n
  induction n with
  | zero => intro it r h; simp [queryGo] at h
  | succ m ih =>
    intro it r h
    rcases hst : store it with e | ⟨is, lek⟩
    · simp only [queryGo, hst, List.mem_singleton] at h
      simpa using h
    · by_cases hc : 0 < (is.getD []).length ∨ lek.isSome
      · simp only [queryGo, hst, if_pos hc, List.mem_singleton] at h
        simpa using h
      · simp only [queryGo, hst, if_neg hc, List.mem_cons] at h
        rcases h with h | h | h
        · simpa using h
        · simp at h
        · exact ih (it + 1) r h

/-- C5: for every key given to the single-record poller whose optional sort
id is absent, the lookup request contains only the partition key field and
omits the sort key field entirely (never sent as an empty value); when the
sort id is present, both fields are sent with the caller-supplied values. -/
theorem C5_sort_key_omission (keys : KeySchema) (tableName : String) :
    (buildGetParams keys tableName).TableName = tableName ∧
    (buildGetParams keys tableName).Key.pk = keys.pk ∧
    (keys.sk = none → (buildGetParams keys tableName).Key.sk = none) ∧
    (∀ s, keys.sk = some s → s ≠ "" →
      (buildGetParams keys tableName).Key.sk = some s) := by
  refine ⟨rfl, rfl, ?_, ?_⟩
  · intro h
    simp [buildGetParams, h, strTruthy]
  · intro s h hne
    simp [buildGetParams, h, strTruthy, hne]

/-- Witness for C5: `{pk: "USER#1"}` omits the sort field entirely, while
`{pk: "USER#1", sk: "PROFILE"}` sends it. -/
theorem C5_sort_key_omission_witness :
    (buildGetParams exKeysNoSk "my-table").Key.sk = none ∧
    (buildGetParams exKeysSk "my-table").Key.sk = some "PROFILE" :=
  ⟨(C5_sort_key_omission exKeysNoSk "my-table").2.2.1 rfl,
    (C5_sort_key_omission exKeysSk "my-table").2.2.2 "PROFILE" rfl (by decide)⟩

/-- C6: when both a filter expression and filter attribute values are
supplied, the value map sent to the store is the key-condition value map
merged with the filter value map, and for every placeholder name defined in
both maps the filter value overrides the key-condition value
(last-write-wins). -/
theorem C6_filter_value_merge {V K : Type} (p : QueryParams V K)
    (fe : String) (fv : List (String × V))
    (hfe : p.filterExpression = some fe) (hfene : fe ≠ "")
    (hfv : p.filterAttributeValues = some fv) :
    (buildQueryInput p).ExpressionAttributeValues =
      p.expressionAttributeValues ++ fv ∧
    (∀ name w, jsLookup fv name = some w →
      jsLookup (buildQueryInput p).ExpressionAttributeValues name = some w) ∧
    (∀ name, jsLookup fv name = none →
      jsLookup (buildQueryInput p).ExpressionAttributeValues name =
        jsLookup p.expressionAttributeValues name) := by
  have htr : strTruthy p.filterExpression = true := by
    rw [hfe]; simp [strTruthy, hfene]
  obtain ⟨_, _, _, _, _, _, _, _, _, h10⟩ := buildQueryInput_fields p
  rw [htr] at h10
  simp only [if_true, hfv] at h10
  refine ⟨h10, ?_, ?_⟩
  · intro name w hw
    rw [h10, jsLookup_append, hw]
  · intro name hn
    rw [h10, jsLookup_append, hn]

/-- Witness for C6: key-condition values `{":pk": 1}` with filter values
`{":pk": 2, ":min": 10}` produce the merged map in which `:pk` resolves to
the filter's value `2`. -/
theorem C6_filter_value_merge_witness :
    (buildQueryInput exQueryParamsFilter).ExpressionAttributeValues =
      [(":pk", 1), (":pk", 2), (":min", 10)] ∧
    jsLookup (buildQueryInput exQueryParamsFilter).ExpressionAttributeValues
      ":pk" = some 2 := by
  have h := C6_filter_value_merge exQueryParamsFilter "amount > :min"
    [(":pk", 2), (":min", 10)] rfl (by decide) rfl
  exact ⟨h.1, h.2.1 ":pk" 2 (by decide)⟩

/-- C7 counterexample: with an absent consistency flag, the request does not
carry the caller's absent value — the built request holds `some false` where
the caller supplied `none`, so the flag is not passed through unmodified. -/
theorem C7_consistency_flag_defaulted :
    (buildQueryInput exQueryParams).ConsistentRead ≠
      exQueryParams.consistentRead := by
  decide

/-- C7 (amended): index selection, row cap and continuation token are placed
in the request exactly as supplied (absent stays absent), and the sort order
sent is ascending unless the caller requests descending; the consistency
flag is passed through when supplied, but an absent flag is sent as `false`
rather than staying absent. -/
theorem C7_request_pass_through {V K : Type} (p : QueryParams V K) :
    (buildQueryInput p).IndexName = p.indexName ∧
    (buildQueryInput p).Limit = p.limit ∧
    (buildQueryInput p).ExclusiveStartKey = p.lastEvaluatedKey ∧
    (buildQueryInput p).ScanIndexForward = some (p.scanIndexForward.getD true) ∧
    (∀ b, p.consistentRead = some b →
      (buildQueryInput p).ConsistentRead = some b) ∧
    (p.consistentRead = none →
      (buildQueryInput p).ConsistentRead = some false) := by
  obtain ⟨_, _, h3, h4, h5, h6, h7, _, _, _⟩ := buildQueryInput_fields p
  refine ⟨h3, h4, h6, h7, ?_, ?_⟩
  · intro b hb
    rw [h5, hb]
    rfl
  · intro hb
    rw [h5, hb]
    rfl

/-- Witness for C7 (amended): absent index stays absent, absent sort order is
sent ascending, absent consistency flag is sent as `false`. -/
theorem C7_request_pass_through_witness :
    (buildQueryInput exQueryParams).IndexName = none ∧
    (buildQueryInput exQueryParams).Limit = none ∧
    (buildQueryInput exQueryParams).ScanIndexForward = some true ∧
    (buildQueryInput exQueryParams).ConsistentRead = some false := by
  have h := C7_request_pass_through exQueryParams
  exact ⟨h.1, h.2.1, h.2.2.2.1, h.2.2.2.2.2 rfl⟩

/-- C8: an empty-string sort id is treated exactly as an absent one — the
presence check is on truthiness, so the lookup request omits the sort key
field and can never address a record whose sort key is the empty string. -/
theorem C8_empty_sort_key (keys : KeySchema) (tableName : String)
    (h : keys.sk = some "") :
    (buildGetParams keys tableName).Key.sk = none ∧
    buildGetParams keys tableName =
      buildGetParams { pk := keys.pk, sk := none } tableName := by
  constructor <;> simp [buildGetParams, h, strTruthy]

/-- Witness for C8: `{pk: "USER#1", sk: ""}` builds the same request as
`{pk: "USER#1"}`. -/
theorem C8_empty_sort_key_witness :
    (buildGetParams exKeysEmptySk "t").Key.sk = none ∧
    buildGetParams exKeysEmptySk "t" =
      buildGetParams { pk := "USER#1", sk := none } "t" :=
  C8_empty_sort_key exKeysEmptySk "t" rfl

/-- C9: when filter attribute values are supplied but no filter expression
is, neither reaches the store request: no filter expression is set and the
value map sent is exactly the key-condition value map, the supplied filter
values being silently ignored. -/
theorem C9_filter_values_ignored {V K : Type} (p : QueryParams V K)
    (hfe : p.filterExpression = none) (_hfv : p.filterAttributeValues.isSome) :
    (buildQueryInput p).FilterExpression = none ∧
    (buildQueryInput p).ExpressionAttributeValues =
      p.expressionAttributeValues := by
  obtain ⟨_, _, _, _, _, _, _, _, h9, h10⟩ := buildQueryInput_fields p
  have ht : strTruthy p.filterExpression = false := by rw [hfe]; rfl
  constructor
  · rw [h9, ht]; simp
  · rw [h10, ht]; simp

/-- Witness for C9: filter values without a filter expression leave the
request's value map untouched. -/
theorem C9_filter_values_ignored_witness :
    (buildQueryInput exQueryParamsValuesOnly).FilterExpression = none ∧
    (buildQueryInput exQueryParamsValuesOnly).ExpressionAttributeValues =
      [(":pk", 1)] := by
  have h := C9_filter_values_ignored exQueryParamsValuesOnly rfl rfl
  exact h

/-- C10: the store request is constructed once before the retry loop and
never mutated, so every call event of one `query` invocation carries the
identical request `buildQueryInput p` — same key condition, merged values,
index, limit, consistency flag, sort order and caller-supplied continuation
token on every retry. -/
theorem C10_request_invariant {V T K ε : Type} (p : QueryParams V K)
    (store : Nat → QueryAttempt T K ε) (r : QueryCommandInput V K)
    (h : PollEvent.call r ∈ (query p store).1) : r = buildQueryInput p := by
  unfold query at h
  exact queryGo_call_req store (buildQueryInput p) (p.delayInSeconds.getD 2)
    (p.maxIterations.getD 10) 1 r h

/-- Witness for C10: the single call of a first-attempt success carries
exactly the request literal built from the parameters. -/
theorem C10_request_invariant_witness :
    exRequestLiteral = buildQueryInput exQueryParams :=
  C10_request_invariant exQueryParams exStoreQTok exRequestLiteral (by decide)

end AwsAsyncAssertions
